import Mathlib

set_option maxRecDepth 100000

/-!
Verification development for the tiered data-encryption engine of the
HNC legal-questionnaire backend (`backend/services/encryption_service.py`).

The Python service is shallowly embedded as executable Lean definitions:

* Byte strings are `List Nat` (one entry per byte / code point).  UTF-8
  encoding of text is modelled as the code-point sequence of the string,
  which is an injective encoding with an executable partial inverse —
  faithful for the ASCII data the service handles and for every property
  proved here.
* The external cryptographic primitives (SHA-256, PBKDF2-HMAC-SHA256,
  AES-256-GCM, Fernet, RSA-OAEP, PKCS8 private-key sealing) come from the
  third-party `cryptography` library and are not part of this repository.
  They are modelled as ideal executable primitives: hashes and KDFs are
  deterministic executable stand-ins (`sha256M`, `pbkdf2Model`) that
  depend on all of their inputs; authenticated encryption is the ideal
  AEAD functionality, where the authentication tag is the record of the
  authenticated data `(key, nonce, ciphertext)` and verification is exact
  recomputation — this is precisely the contract the service relies on
  (decryption succeeds iff key, nonce, tag and ciphertext are the ones
  produced at encryption time).  Randomness (`os.urandom`, RSA key
  generation) is passed in as an explicit seed parameter.
* Python's `json.dumps` / `json.loads` are embedded as an executable
  serializer and recursive-descent parser over a JSON value type whose
  numerals are integers (floating-point values are out of scope).
* Fallible code returns `Except`/`Option`; the service's broad
  `try/except` blocks that convert exceptions into `success: False`
  dictionaries are modelled by the corresponding error results.
-/

/-! ## Byte strings and text encoding -/

/-- Code-point bytes of a string: the model of `s.encode("utf-8")`.
Injective, with executable inverse `bytesStr?`; byte counts agree with
UTF-8 on ASCII data. -/
def strBytes (s : String) : List Nat :=
  s.data.map Char.toNat

/-- Decode a list of code points back into characters; `none` when a code
point is not a valid character (the model of `UnicodeDecodeError`). -/
def charsOfBytes? : List Nat → Option (List Char)
  | [] => some []
  | b :: bs =>
    if _h : b.isValidChar then (charsOfBytes? bs).map (fun cs => Char.ofNat b :: cs)
    else none

/-- Decode bytes to a string: the model of `bytes.decode("utf-8")`. -/
def bytesStr? (bs : List Nat) : Option String :=
  (charsOfBytes? bs).map String.mk

theorem charsOfBytes?_map_toNat (l : List Char) :
    charsOfBytes? (l.map Char.toNat) = some l := by
  induction l with
  | nil => rfl
  | cons c cs ih =>
    have hv : Nat.isValidChar c.toNat := c.valid
    simp [charsOfBytes?, hv, ih, Char.ofNat_toNat]

theorem bytesStr?_strBytes (s : String) : bytesStr? (strBytes s) = some s := by
  simp [bytesStr?, strBytes, charsOfBytes?_map_toNat]

/-! ## Executable stand-ins for the external hash/KDF primitives -/

/-- Mixing step of the executable stand-in hash (64-bit FNV-1a). -/
def mixStep (h b : Nat) : Nat :=
  ((h ^^^ b) * 1099511628211) % 18446744073709551616

/-- Executable stand-in hash over a byte list, used to model the external
digest and key-derivation primitives.  Deterministic and dependent on
every input byte; the properties proved here rely only on that. -/
def mixFold (bs : List Nat) : Nat :=
  bs.foldl mixStep 14695981039346656037

/-- Avalanche finalizer (murmur-style xor-shift/multiply rounds) so that
every input bit influences every output byte of the stand-ins. -/
def mixFin (h : Nat) : Nat :=
  let h := ((h ^^^ (h / 8589934592)) * 18397679294719823053) % 18446744073709551616
  let h := ((h ^^^ (h / 8589934592)) * 14181476777654086739) % 18446744073709551616
  h ^^^ (h / 8589934592)

/-- Expand a seed into `n` pseudo-random bytes. -/
def expandBytes (seed n : Nat) : List Nat :=
  (List.range n).map (fun i => mixFin (mixFold [seed, i]) % 256)

theorem length_expandBytes (seed n : Nat) : (expandBytes seed n).length = n := by
  simp [expandBytes]

/-- Model of `hashlib.sha256(...).digest()`: a deterministic executable
stand-in with a 32-byte output. -/
def sha256M (bs : List Nat) : List Nat :=
  expandBytes (mixFold bs) 32

theorem length_sha256M (bs : List Nat) : (sha256M bs).length = 32 :=
  length_expandBytes _ _

/-- Model of `PBKDF2HMAC(SHA256, length, salt, iterations).derive(password)`:
a deterministic executable stand-in depending on password, salt, iteration
count and output length.  (The iteration count enters as an input of the
stand-in rather than being executed.) -/
def pbkdf2Model (password salt : List Nat) (iter n : Nat) : List Nat :=
  expandBytes (mixFold (password ++ 0 :: salt ++ [1, iter])) n

theorem length_pbkdf2Model (password salt : List Nat) (iter n : Nat) :
    (pbkdf2Model password salt iter n).length = n :=
  length_expandBytes _ _

/-- Model of `os.urandom` and other fresh randomness: bytes derived from an
explicit seed parameter (state passing for the ambient entropy source). -/
def randBytes (seed tag n : Nat) : List Nat :=
  expandBytes (mixFold [seed, tag]) n

/-- Keystream masking at a given starting index: the confidentiality part of
the ideal AEAD (a keystream XOR, as in CTR-based AES-GCM). -/
def maskFrom (key nonce : List Nat) : Nat → List Nat → List Nat
  | _, [] => []
  | i, b :: bs => (b ^^^ (mixFin (mixFold (key ++ nonce ++ [i])) % 256)) :: maskFrom key nonce (i + 1) bs

/-- Mask a byte list with the keystream determined by key and nonce.
Involutive, so it serves as both the encryption and decryption mask. -/
def maskBytes (key nonce data : List Nat) : List Nat :=
  maskFrom key nonce 0 data

theorem maskFrom_maskFrom (key nonce : List Nat) (i : Nat) (bs : List Nat) :
    maskFrom key nonce i (maskFrom key nonce i bs) = bs := by
  induction bs generalizing i with
  | nil => rfl
  | cons b bs ih => simp [maskFrom, Nat.xor_cancel_right, ih]

theorem maskBytes_maskBytes (key nonce data : List Nat) :
    maskBytes key nonce (maskBytes key nonce data) = data :=
  maskFrom_maskFrom key nonce 0 data

theorem length_maskFrom (key nonce : List Nat) (i : Nat) (bs : List Nat) :
    (maskFrom key nonce i bs).length = bs.length := by
  induction bs generalizing i with
  | nil => rfl
  | cons b bs ih => simp [maskFrom, ih]

theorem length_maskBytes (key nonce data : List Nat) :
    (maskBytes key nonce data).length = data.length :=
  length_maskFrom key nonce 0 data

/-- Big-endian 4-byte encoding: the model of `n.to_bytes(4, "big")`. -/
def natToBe4 (n : Nat) : List Nat :=
  [n / 16777216 % 256, n / 65536 % 256, n / 256 % 256, n % 256]

/-- Big-endian byte decoding: the model of `int.from_bytes(bs, "big")`. -/
def beToNat (bs : List Nat) : Nat :=
  bs.foldl (fun a b => a * 256 + b) 0

theorem length_natToBe4 (n : Nat) : (natToBe4 n).length = 4 := rfl

theorem beToNat_natToBe4 (n : Nat) (h : n < 4294967296) :
    beToNat (natToBe4 n) = n := by
  simp only [natToBe4, beToNat, List.foldl]
  omega

/-! ## JSON values, serialization (`json.dumps`) and parsing (`json.loads`) -/

/-- JSON-style values handled by the service (`Union[str, Dict, List]` plus
the scalars appearing inside structures).  Numerals are integers;
floating-point values are outside the scope of this embedding. -/
inductive JsonVal where
  | null : JsonVal
  | bool (b : Bool) : JsonVal
  | num (n : Int) : JsonVal
  | str (s : String) : JsonVal
  | arr (xs : List JsonVal) : JsonVal
  | obj (xs : List (String × JsonVal)) : JsonVal
  deriving Repr

mutual

def JsonVal.beq : JsonVal → JsonVal → Bool
  | .null, .null => true
  | .bool a, .bool b => a == b
  | .num a, .num b => a == b
  | .str a, .str b => a == b
  | .arr a, .arr b => JsonVal.beqList a b
  | .obj a, .obj b => JsonVal.beqObj a b
  | _, _ => false

def JsonVal.beqList : List JsonVal → List JsonVal → Bool
  | [], [] => true
  | a :: as, b :: bs => JsonVal.beq a b && JsonVal.beqList as bs
  | _, _ => false

def JsonVal.beqObj : List (String × JsonVal) → List (String × JsonVal) → Bool
  | [], [] => true
  | (k, a) :: as, (l, b) :: bs => k == l && JsonVal.beq a b && JsonVal.beqObj as bs
  | _, _ => false

end

mutual

theorem JsonVal.beq_iff : ∀ a b : JsonVal, JsonVal.beq a b = true ↔ a = b
  | .null, .null => by simp [JsonVal.beq]
  | .bool a, .bool b => by simp [JsonVal.beq]
  | .num a, .num b => by simp [JsonVal.beq]
  | .str a, .str b => by simp [JsonVal.beq]
  | .arr a, .arr b => by
      simp only [JsonVal.beq, JsonVal.arr.injEq]
      exact JsonVal.beqList_iff a b
  | .obj a, .obj b => by
      simp only [JsonVal.beq, JsonVal.obj.injEq]
      exact JsonVal.beqObj_iff a b
  | .null, .bool _ | .null, .num _ | .null, .str _ | .null, .arr _ | .null, .obj _
  | .bool _, .null | .bool _, .num _ | .bool _, .str _ | .bool _, .arr _ | .bool _, .obj _
  | .num _, .null | .num _, .bool _ | .num _, .str _ | .num _, .arr _ | .num _, .obj _
  | .str _, .null | .str _, .bool _ | .str _, .num _ | .str _, .arr _ | .str _, .obj _
  | .arr _, .null | .arr _, .bool _ | .arr _, .num _ | .arr _, .str _ | .arr _, .obj _
  | .obj _, .null | .obj _, .bool _ | .obj _, .num _ | .obj _, .str _ | .obj _, .arr _ => by
      simp [JsonVal.beq]

theorem JsonVal.beqList_iff : ∀ a b : List JsonVal, JsonVal.beqList a b = true ↔ a = b
  | [], [] => by simp [JsonVal.beqList]
  | a :: as, b :: bs => by
      simp only [JsonVal.beqList, Bool.and_eq_true, List.cons.injEq]
      exact and_congr (JsonVal.beq_iff a b) (JsonVal.beqList_iff as bs)
  | [], _ :: _ => by simp [JsonVal.beqList]
  | _ :: _, [] => by simp [JsonVal.beqList]

theorem JsonVal.beqObj_iff : ∀ a b : List (String × JsonVal), JsonVal.beqObj a b = true ↔ a = b
  | [], [] => by simp [JsonVal.beqObj]
  | (k, a) :: as, (l, b) :: bs => by
      simp only [JsonVal.beqObj, Bool.and_eq_true, List.cons.injEq, Prod.mk.injEq]
      rw [JsonVal.beq_iff a b, JsonVal.beqObj_iff as bs, beq_iff_eq, and_assoc]
  | [], _ :: _ => by simp [JsonVal.beqObj]
  | _ :: _, [] => by simp [JsonVal.beqObj]

end

instance : DecidableEq JsonVal := fun a b =>
  decidable_of_iff _ (JsonVal.beq_iff a b)

/-- Hexadecimal digit character for a value below 16 (lower case, as
produced by Python's `json` escaping). -/
def hexChar (n : Nat) : Char :=
  if n < 10 then Char.ofNat (48 + n) else Char.ofNat (87 + n)

/-- Escape one character as inside a Python `json.dumps` string literal
(with `ensure_ascii=False`): quote, backslash and named control escapes,
`\u00XX` for the remaining control characters, everything else verbatim. -/
def escapeChar (c : Char) : List Char :=
  if c = '"' then ['\\', '"']
  else if c = '\\' then ['\\', '\\']
  else if c = '\n' then ['\\', 'n']
  else if c = '\t' then ['\\', 't']
  else if c = '\r' then ['\\', 'r']
  else if c.toNat = 8 then ['\\', 'b']
  else if c.toNat = 12 then ['\\', 'f']
  else if c.toNat < 32 then ['\\', 'u', '0', '0', hexChar (c.toNat / 16), hexChar (c.toNat % 16)]
  else [c]

/-- Quote a string as a JSON string literal. -/
def quoteString (s : String) : String :=
  String.mk ('"' :: (s.data.flatMap escapeChar ++ ['"']))

mutual

/-- Model of `json.dumps(v, ensure_ascii=False)` with Python's default
separators (`", "` and `": "`). -/
def jsonDumps : JsonVal → String
  | .null => "null"
  | .bool true => "true"
  | .bool false => "false"
  | .num n => toString n
  | .str s => quoteString s
  | .arr xs => "[" ++ jsonDumpsList xs ++ "]"
  | .obj xs => "\x7b" ++ jsonDumpsObj xs ++ "\x7d"

def jsonDumpsList : List JsonVal → String
  | [] => ""
  | [x] => jsonDumps x
  | x :: y :: xs => jsonDumps x ++ ", " ++ jsonDumpsList (y :: xs)

def jsonDumpsObj : List (String × JsonVal) → String
  | [] => ""
  | [(k, v)] => quoteString k ++ ": " ++ jsonDumps v
  | (k, v) :: p :: xs => quoteString k ++ ": " ++ jsonDumps v ++ ", " ++ jsonDumpsObj (p :: xs)

end

/-- JSON whitespace skipping (space, tab, newline, carriage return — the
characters `json.loads` skips). -/
def skipWs : List Char → List Char
  | c :: cs => if c = ' ' ∨ c = '\t' ∨ c = '\n' ∨ c = '\r' then skipWs cs else c :: cs
  | [] => []

/-- Drop an expected literal from the input, or fail. -/
def dropLit : List Char → List Char → Option (List Char)
  | [], l => some l
  | c :: cs, d :: ds => if c = d then dropLit cs ds else none
  | _ :: _, [] => none

/-- Numeric value of a hexadecimal digit character. -/
def hexVal? (c : Char) : Option Nat :=
  if 48 ≤ c.toNat ∧ c.toNat ≤ 57 then some (c.toNat - 48)
  else if 97 ≤ c.toNat ∧ c.toNat ≤ 102 then some (c.toNat - 87)
  else if 65 ≤ c.toNat ∧ c.toNat ≤ 70 then some (c.toNat - 55)
  else none

/-- Parse the body of a JSON string literal after the opening quote,
returning the decoded characters and the remaining input.  Escape handling
follows RFC 8259 as implemented by Python's `json` (a lone `\uXXXX` escape
is decoded as that code point; surrogate-pair recombination is not
modelled — no property here depends on it). -/
def parseJStr : Nat → List Char → Option (List Char × List Char)
  | 0, _ => none
  | _, [] => none
  | fuel + 1, c :: cs =>
    if c = '"' then some ([], cs)
    else if c = '\\' then
      match cs with
      | [] => none
      | e :: cs' =>
        let dec? : Option (Char × List Char) :=
          if e = '"' then some ('"', cs')
          else if e = '\\' then some ('\\', cs')
          else if e = '/' then some ('/', cs')
          else if e = 'b' then some (Char.ofNat 8, cs')
          else if e = 'f' then some (Char.ofNat 12, cs')
          else if e = 'n' then some ('\n', cs')
          else if e = 'r' then some ('\r', cs')
          else if e = 't' then some ('\t', cs')
          else if e = 'u' then
            match cs' with
            | h1 :: h2 :: h3 :: h4 :: cs'' =>
              match hexVal? h1, hexVal? h2, hexVal? h3, hexVal? h4 with
              | some a, some b, some c3, some d =>
                let code := ((a * 16 + b) * 16 + c3) * 16 + d
                if _h : code.isValidChar then some (Char.ofNat code, cs'') else none
              | _, _, _, _ => none
            | _ => none
          else none
        match dec? with
        | none => none
        | some (ch, rest) =>
          match parseJStr fuel rest with
          | some (body, rem) => some (ch :: body, rem)
          | none => none
    else if c.toNat < 32 then none
    else
      match parseJStr fuel cs with
      | some (body, rem) => some (c :: body, rem)
      | none => none

/-- Decimal digit test. -/
def isDigit (c : Char) : Bool :=
  48 ≤ c.toNat && c.toNat ≤ 57

/-- Consume a maximal nonempty run of decimal digits. -/
def takeDigits : List Char → Option (List Char × List Char)
  | c :: cs =>
    if isDigit c then
      match takeDigits cs with
      | some (ds, rest) => some (c :: ds, rest)
      | none => some ([c], cs)
    else none
  | [] => none

/-- Natural-number value of a digit run. -/
def digitsVal (ds : List Char) : Nat :=
  ds.foldl (fun a c => a * 10 + (c.toNat - 48)) 0

/-- Parse a JSON number.  Integer syntax follows the JSON grammar (optional
minus, no leading zeros); a fractional part or exponent makes the parse
fail — Python would produce a float there, which this embedding does not
model. -/
def parseJNum (l : List Char) : Option (Int × List Char) :=
  let (neg, l') := match l with
    | '-' :: rest => (true, rest)
    | _ => (false, l)
  match takeDigits l' with
  | none => none
  | some (ds, rest) =>
    if ds.length > 1 ∧ ds.headI = '0' then none
    else
      match rest with
      | c :: _ => if c = '.' ∨ c = 'e' ∨ c = 'E' then none else
          some (if neg then -(digitsVal ds : Int) else (digitsVal ds : Int), rest)
      | [] => some (if neg then -(digitsVal ds : Int) else (digitsVal ds : Int), rest)

mutual

/-- Recursive-descent JSON value parser (fuel-bounded; the entry point
`parseJson` supplies ample fuel). -/
def parseJVal : Nat → List Char → Option (JsonVal × List Char)
  | 0, _ => none
  | fuel + 1, l =>
    match skipWs l with
    | [] => none
    | c :: cs =>
      if c = 'n' then (dropLit ['u', 'l', 'l'] cs).map (fun r => (JsonVal.null, r))
      else if c = 't' then (dropLit ['r', 'u', 'e'] cs).map (fun r => (JsonVal.bool true, r))
      else if c = 'f' then (dropLit ['a', 'l', 's', 'e'] cs).map (fun r => (JsonVal.bool false, r))
      else if c = '"' then
        match parseJStr (cs.length + 1) cs with
        | some (body, rem) => some (JsonVal.str (String.mk body), rem)
        | none => none
      else if c = '[' then
        match skipWs cs with
        | ']' :: rest => some (JsonVal.arr [], rest)
        | l' => match parseJElems fuel l' with
          | some (xs, rem) => some (JsonVal.arr xs, rem)
          | none => none
      else if c = '\x7b' then
        match skipWs cs with
        | '\x7d' :: rest => some (JsonVal.obj [], rest)
        | l' => match parseJMembers fuel l' with
          | some (xs, rem) => some (JsonVal.obj xs, rem)
          | none => none
      else
        (parseJNum (c :: cs)).map (fun p => (JsonVal.num p.1, p.2))

/-- Parse a nonempty comma-separated element list followed by `]`. -/
def parseJElems : Nat → List Char → Option (List JsonVal × List Char)
  | 0, _ => none
  | fuel + 1, l =>
    match parseJVal fuel l with
    | none => none
    | some (v, rest) =>
      match skipWs rest with
      | ',' :: rest' =>
        match parseJElems fuel rest' with
        | some (xs, rem) => some (v :: xs, rem)
        | none => none
      | ']' :: rest' => some ([v], rest')
      | _ => none

/-- Parse a nonempty comma-separated member list followed by the closing
brace. -/
def parseJMembers : Nat → List Char → Option (List (String × JsonVal) × List Char)
  | 0, _ => none
  | fuel + 1, l =>
    match skipWs l with
    | '"' :: cs =>
      match parseJStr (cs.length + 1) cs with
      | none => none
      | some (kbody, rest) =>
        match skipWs rest with
        | ':' :: rest' =>
          match parseJVal fuel rest' with
          | none => none
          | some (v, rest'') =>
            match skipWs rest'' with
            | ',' :: rest3 =>
              match parseJMembers fuel rest3 with
              | some (xs, rem) => some ((String.mk kbody, v) :: xs, rem)
              | none => none
            | '\x7d' :: rest3 => some ([(String.mk kbody, v)], rest3)
            | _ => none
        | _ => none
    | _ => none

end

/-- Model of `json.loads`: parse a full JSON document, requiring only
whitespace after the value. -/
def parseJson (s : String) : Option JsonVal :=
  match parseJVal (2 * s.length + 2) s.data with
  | some (v, rest) => if skipWs rest = [] then some v else none
  | none => none

/-! ## Python-side value stringification -/

/-- Model of Python `str(value)` for the scalar values the service passes
through `str(data)`: `str` is the identity, numbers print in decimal,
booleans print as `True`/`False`, `None` prints as `None`.  For structured
values (used only inside generated artifact-id strings) the JSON rendering
stands in for Python's `repr`-style output. -/
def pyStr : JsonVal → String
  | .null => "None"
  | .bool true => "True"
  | .bool false => "False"
  | .num n => toString n
  | .str s => s
  | .arr xs => jsonDumps (.arr xs)
  | .obj xs => jsonDumps (.obj xs)

/-- Serialization step of `encrypt_data`: dictionaries and lists go through
`json.dumps(..., ensure_ascii=False)`, everything else through `str(...)`. -/
def serializePy : JsonVal → String
  | .arr xs => jsonDumps (.arr xs)
  | .obj xs => jsonDumps (.obj xs)
  | v => pyStr v

/-- Deserialization step of `decrypt_data`: try `json.loads`, fall back to
the raw string when parsing fails. -/
def jsonReinterpret (v : JsonVal) : JsonVal :=
  match parseJson (serializePy v) with
  | some w => w
  | none => .str (serializePy v)

/-! ## Enumerations and metadata (`EncryptionLevel`, `DataCategory`,
`EncryptionMetadata`) -/

/-- The four encryption levels of the service. -/
inductive EncryptionLevel where
  | basic | standard | high | maximum
  deriving DecidableEq, Repr

/-- String value of a level (the Python enum `.value`). -/
def EncryptionLevel.value : EncryptionLevel → String
  | .basic => "basic"
  | .standard => "standard"
  | .high => "high"
  | .maximum => "maximum"

/-- Model of the `EncryptionLevel(string)` enum constructor (raises
`ValueError`, i.e. `none`, on an unknown value). -/
def encryptionLevelOfString (s : String) : Option EncryptionLevel :=
  if s = "basic" then some .basic
  else if s = "standard" then some .standard
  else if s = "high" then some .high
  else if s = "maximum" then some .maximum
  else none

/-- The six data categories of the service. -/
inductive DataCategory where
  | personal_info | financial_data | legal_documents
  | authentication | session_data | system_config
  deriving DecidableEq, Repr

/-- String value of a category (the Python enum `.value`). -/
def DataCategory.value : DataCategory → String
  | .personal_info => "personal_info"
  | .financial_data => "financial_data"
  | .legal_documents => "legal_documents"
  | .authentication => "authentication"
  | .session_data => "session_data"
  | .system_config => "system_config"

/-- Model of the `DataCategory(string)` enum constructor. -/
def dataCategoryOfString (s : String) : Option DataCategory :=
  if s = "personal_info" then some .personal_info
  else if s = "financial_data" then some .financial_data
  else if s = "legal_documents" then some .legal_documents
  else if s = "authentication" then some .authentication
  else if s = "session_data" then some .session_data
  else if s = "system_config" then some .system_config
  else none

theorem encryptionLevelOfString_value (l : EncryptionLevel) :
    encryptionLevelOfString l.value = some l := by
  cases l <;> rfl

theorem dataCategoryOfString_value (c : DataCategory) :
    dataCategoryOfString c.value = some c := by
  cases c <;> rfl

/-- The metadata dictionary accompanying every artifact
(`EncryptionMetadata.to_dict()`): enum values as strings, timestamps as
ISO strings, and the nonce as raw bytes (base64 transport encoding of the
source — a fixed bijection — is elided). -/
structure EncryptionMetadata where
  data_id : String
  encryption_level : String
  data_category : String
  encrypted_at : String
  key_version : String
  algorithm : String
  salt : Option String
  iv : Option (List Nat)
  deriving DecidableEq, Repr

/-! ## Ideal authenticated-encryption primitives -/

/-- Ideal authentication tag: the record of the data a real AEAD tag
authenticates.  Verification is recomputation, so a tag verifies exactly
when key, nonce and ciphertext are unchanged — the idealization of the
16-byte GCM tag (and of the Fernet HMAC). -/
structure IdealTag where
  key : List Nat
  nonce : List Nat
  ct : List Nat
  deriving DecidableEq, Repr

/-- A Fernet token (`Fernet(key).encrypt(data)`): authenticated symmetric
encryption with an internal nonce; modelled as the ideal AEAD. -/
structure FernetToken where
  nonce : List Nat
  ct : List Nat
  tag : IdealTag
  deriving DecidableEq, Repr

/-- The blob produced by the AES-GCM strategies: the source packs the raw
bytes as `iv (12 bytes) ++ auth_tag (16 bytes) ++ ciphertext` and splits
them back at offsets 12 and 28 on decryption; the model keeps the three
regions as fields.  `byteLen` below gives the packed length. -/
structure GcmBlob where
  nonce : List Nat
  tag : IdealTag
  ct : List Nat
  deriving DecidableEq, Repr

/-- Packed byte length of a GCM blob: nonce, 16-byte tag, ciphertext. -/
def GcmBlob.byteLen (b : GcmBlob) : Nat :=
  b.nonce.length + 16 + b.ct.length

/-- Ideal RSA-OAEP ciphertext under the ephemeral public key identified by
`pubSeed`; decryption requires the matching private key. -/
structure RsaCiphertext where
  pubSeed : Nat
  payload : List Nat
  deriving DecidableEq, Repr

/-- The ephemeral RSA private key, serialized to PEM and sealed with the
category working key (`BestAvailableEncryption`): ideal authenticated
sealing. -/
structure SealedPrivateKey where
  sealKey : List Nat
  privSeed : Nat
  deriving DecidableEq, Repr

/-- The component dictionary of a Maximum-level artifact
(`encrypted_aes_key`, `encrypted_private_key`, `iv`, `auth_tag`,
`ciphertext`; the base64/JSON packaging of the source is elided). -/
structure MaxBlob where
  encryptedAesKey : RsaCiphertext
  encryptedPrivateKey : SealedPrivateKey
  iv : List Nat
  authTag : IdealTag
  ciphertext : List Nat
  deriving DecidableEq, Repr

/-- Decrypt an ideal RSA-OAEP ciphertext with the private key of seed
`privSeed`; wrong key or tampering fails (OAEP decryption failure). -/
def rsaOaepDecrypt (privSeed : Nat) (c : RsaCiphertext) : Option (List Nat) :=
  if c.pubSeed = privSeed then some c.payload else none

/-- Unseal the ephemeral private key using the category working key
(`load_pem_private_key(..., password=key)`); a wrong key fails. -/
def openPrivateKey (key : List Nat) (s : SealedPrivateKey) : Option Nat :=
  if s.sealKey = key then some s.privSeed else none

/-- Encrypted payloads as carried in the `encrypted_data` field of the
result dictionary, one constructor per strategy output shape. -/
inductive EncBlob where
  | fernet (tok : FernetToken)
  | gcm (b : GcmBlob)
  | gcmRsa (b : MaxBlob)
  deriving DecidableEq, Repr

/-! ## The encryption service: state and key derivation -/

/-- State of `EncryptionService`: the master key, the current key-version
label, and the derived per-category working keys (`self.data_keys`, a
total map over the closed category enumeration). -/
structure EncryptionService where
  master_key : List Nat
  key_version : String
  data_keys : DataCategory → List Nat

/-- Model of `EncryptionService._derive_category_key`: the salt is
`SHA256(f"{category.value}_{key_version}")` — note the underscore
separator — and the key is PBKDF2-HMAC-SHA256 of the master key with that
salt, 100000 iterations, 32 bytes. -/
def deriveCategoryKey (master_key : List Nat) (key_version : String)
    (category : DataCategory) : List Nat :=
  let salt := sha256M (strBytes (category.value ++ "_" ++ key_version))
  pbkdf2Model master_key salt 100000 32

/-- Model of `EncryptionService._initialize_category_keys`: derive a
working key for every category under the given version. -/
def categoryKeys (master_key : List Nat) (key_version : String) :
    DataCategory → List Nat :=
  fun c => deriveCategoryKey master_key key_version c

/-- Construction of the service (`__init__`): key version `"v1.0"` and the
category keys derived under it. -/
def EncryptionService.mkService (master_key : List Nat) : EncryptionService :=
  ⟨master_key, "v1.0", categoryKeys master_key "v1.0"⟩

/-- Model of `EncryptionService.rotate_keys`: a fresh version label
`f"v{timestamp}"` and a wholesale replacement of `data_keys` by keys
derived under the new version (the copied `old_keys` dictionary of the
source is a discarded local).  `now` models the rotation timestamp. -/
def EncryptionService.rotate_keys (st : EncryptionService) (now : String) :
    EncryptionService :=
  let newVersion := "v" ++ now
  { st with key_version := newVersion,
            data_keys := categoryKeys st.master_key newVersion }

/-! ## Encryption strategies (`_encrypt_fernet`, `_encrypt_aes_gcm`,
`_encrypt_aes_gcm_enhanced`, `_encrypt_aes_rsa`) -/

/-- Model of `EncryptionService._encrypt_fernet`: authenticated symmetric
encryption of the data under the category working key (the urlsafe-base64
re-encoding of the key that `Fernet` requires is a fixed bijection and is
elided).  `now` models `datetime.now().isoformat()`, `rng` the entropy
source. -/
def EncryptionService.encryptFernet (st : EncryptionService) (now : String)
    (rng : Nat) (data : List Nat) (category : DataCategory) (data_id : String) :
    FernetToken × EncryptionMetadata :=
  let key := st.data_keys category
  let nonce := randBytes rng 0 16
  let ct := maskBytes key nonce data
  (⟨nonce, ct, ⟨key, nonce, ct⟩⟩,
   ⟨data_id, "basic", category.value, now, st.key_version, "fernet", none, none⟩)

/-- Model of `EncryptionService._encrypt_aes_gcm`: AES-256-GCM under the
category working key with a fresh 12-byte IV; the blob is
`iv ++ auth_tag ++ ciphertext`, and the IV is also stored in the
metadata. -/
def EncryptionService.encryptAesGcm (st : EncryptionService) (now : String)
    (rng : Nat) (data : List Nat) (category : DataCategory) (data_id : String) :
    GcmBlob × EncryptionMetadata :=
  let key := st.data_keys category
  let iv := randBytes rng 1 12
  let ct := maskBytes key iv data
  (⟨iv, ⟨key, iv, ct⟩, ct⟩,
   ⟨data_id, "standard", category.value, now, st.key_version, "aes_256_gcm", none, some iv⟩)

/-- Model of `EncryptionService._encrypt_aes_gcm_enhanced`: the plaintext
is wrapped as `len(timestamp).to_bytes(4) ++ timestamp ++ SHA256(data)
++ data` before AES-GCM encryption; the metadata records level `"high"`
but the same algorithm tag `"aes_256_gcm"`. -/
def EncryptionService.encryptAesGcmEnhanced (st : EncryptionService)
    (now : String) (rng : Nat) (data : List Nat) (category : DataCategory)
    (data_id : String) : GcmBlob × EncryptionMetadata :=
  let timestamp := strBytes now
  let integrity_hash := sha256M data
  let enhanced := natToBe4 timestamp.length ++ timestamp ++ integrity_hash ++ data
  let key := st.data_keys category
  let iv := randBytes rng 1 12
  let ct := maskBytes key iv enhanced
  (⟨iv, ⟨key, iv, ct⟩, ct⟩,
   ⟨data_id, "high", category.value, now, st.key_version, "aes_256_gcm", none, some iv⟩)

/-- Model of `EncryptionService._encrypt_aes_rsa`: a fresh 32-byte AES key
encrypts the data under AES-GCM; a fresh ephemeral RSA-2048 key pair
(identified by its generation seed) wraps the AES key with OAEP; the RSA
private key is sealed with the category working key.  The metadata has no
IV field (the IV lives inside the component dictionary). -/
def EncryptionService.encryptAesRsa (st : EncryptionService) (now : String)
    (rng : Nat) (data : List Nat) (category : DataCategory) (data_id : String) :
    MaxBlob × EncryptionMetadata :=
  let aes_key := randBytes rng 2 32
  let iv := randBytes rng 3 12
  let ct := maskBytes aes_key iv data
  let rsaSeed := mixFold [rng, 4]
  (⟨⟨rsaSeed, aes_key⟩, ⟨st.data_keys category, rsaSeed⟩, iv, ⟨aes_key, iv, ct⟩, ct⟩,
   ⟨data_id, "maximum", category.value, now, st.key_version, "aes_256_gcm_rsa", none, none⟩)

/-- The successful result dictionary of `encrypt_data` (`success`,
`data_id`, `encrypted_data`, `metadata`, `encryption_level`,
`category`). -/
structure EncryptResult where
  data_id : String
  encrypted_data : EncBlob
  metadata : EncryptionMetadata
  encryption_level : String
  category : String
  deriving DecidableEq, Repr

/-- Model of `EncryptionService.encrypt_data`.  An empty `data_id` models
the falsy default and is replaced by a generated id.  The serialized data
is dispatched to the strategy of the requested level.  The surrounding
`try/except` of the source is unreachable in the modelled fragment: every
level of the closed enumeration is handled and none of the modelled
operations raises, so the result is always the success dictionary. -/
def EncryptionService.encrypt_data (st : EncryptionService) (now : String)
    (rng : Nat) (data : JsonVal) (category : DataCategory)
    (encryption_level : EncryptionLevel) (data_id : String) : EncryptResult :=
  let data_id := if data_id = "" then category.value ++ "_" ++ now else data_id
  let data_bytes := strBytes (serializePy data)
  match encryption_level with
  | .basic =>
    let (tok, md) := st.encryptFernet now rng data_bytes category data_id
    ⟨data_id, .fernet tok, md, "basic", category.value⟩
  | .standard =>
    let (b, md) := st.encryptAesGcm now rng data_bytes category data_id
    ⟨data_id, .gcm b, md, "standard", category.value⟩
  | .high =>
    let (b, md) := st.encryptAesGcmEnhanced now rng data_bytes category data_id
    ⟨data_id, .gcm b, md, "high", category.value⟩
  | .maximum =>
    let (b, md) := st.encryptAesRsa now rng data_bytes category data_id
    ⟨data_id, .gcmRsa b, md, "maximum", category.value⟩

/-! ## Decryption -/

/-- Decryption failures, mirroring the exceptions the source converts into
`success: False` results: AEAD-tag or key-unwrap verification failures
(`InvalidTag` and the OAEP/PEM decryption errors), the High-level embedded
hash mismatch (`ValueError("Data integrity check failed")`), enum
`ValueError`s on bad metadata, the unsupported-algorithm branch, shape
mismatches between blob and algorithm, and UTF-8 decode failures. -/
inductive DecErr where
  | authenticationError
  | integrityError
  | invalidMetadata
  | unsupportedAlgorithm
  | malformedData
  | decodeError
  deriving DecidableEq, Repr

/-- Model of `EncryptionService._decrypt_fernet`: verify and strip the
Fernet token under the category working key. -/
def EncryptionService.decryptFernet (key : List Nat) (tok : FernetToken) :
    Except DecErr (List Nat) :=
  if tok.tag = ⟨key, tok.nonce, tok.ct⟩ then
    .ok (maskBytes key tok.nonce tok.ct)
  else .error .authenticationError

/-- Model of `EncryptionService._decrypt_aes_gcm`: verify the GCM tag
first; then, when the metadata level is `"high"`, split the recovered
payload as `len ‖ timestamp ‖ hash ‖ data` (with Python's lenient slicing)
and compare the embedded hash against the recomputed one. -/
def EncryptionService.decryptAesGcm (key : List Nat) (b : GcmBlob)
    (mdLevel : String) : Except DecErr (List Nat) :=
  if b.tag = ⟨key, b.nonce, b.ct⟩ then
    let decrypted := maskBytes key b.nonce b.ct
    if mdLevel = "high" then
      let timestamp_len := beToNat (decrypted.take 4)
      let original := decrypted.drop (4 + timestamp_len + 32)
      let integrity_hash := (decrypted.drop (4 + timestamp_len)).take 32
      if integrity_hash = sha256M original then .ok original
      else .error .integrityError
    else .ok decrypted
  else .error .authenticationError

/-- Model of `EncryptionService._decrypt_aes_rsa`: unseal the ephemeral RSA
private key with the category working key, OAEP-unwrap the AES key, then
AES-GCM-decrypt the payload. -/
def EncryptionService.decryptAesRsa (key : List Nat) (b : MaxBlob) :
    Except DecErr (List Nat) :=
  match openPrivateKey key b.encryptedPrivateKey with
  | none => .error .authenticationError
  | some privSeed =>
    match rsaOaepDecrypt privSeed b.encryptedAesKey with
    | none => .error .authenticationError
    | some aes_key =>
      if b.authTag = ⟨aes_key, b.iv, b.ciphertext⟩ then
        .ok (maskBytes aes_key b.iv b.ciphertext)
      else .error .authenticationError

/-- Deserialization tail of `decrypt_data`: decode the decrypted bytes as
UTF-8, then try `json.loads` and fall back to the raw string. -/
def deserialize (bs : List Nat) : Except DecErr JsonVal :=
  match bytesStr? bs with
  | none => .error .decodeError
  | some data_str =>
    match parseJson data_str with
    | some v => .ok v
    | none => .ok (.str data_str)

theorem deserialize_strBytes (v : JsonVal) :
    deserialize (strBytes (serializePy v)) = .ok (jsonReinterpret v) := by
  unfold deserialize jsonReinterpret
  rw [bytesStr?_strBytes]
  cases hp : parseJson (serializePy v) <;> simp [hp]

/-- Model of `EncryptionService.decrypt_data`: validate the metadata enums
(`EncryptionLevel(...)`, `DataCategory(...)`), dispatch on the algorithm
string, decrypt, decode UTF-8, then deserialize with the JSON-or-raw-string
fallback.  The `data_id`/`decrypted_at` bookkeeping of the success
dictionary is elided. -/
def EncryptionService.decrypt_data (st : EncryptionService)
    (encrypted_data : EncBlob) (metadata : EncryptionMetadata) :
    Except DecErr JsonVal :=
  match encryptionLevelOfString metadata.encryption_level,
        dataCategoryOfString metadata.data_category with
  | some _, some category =>
    let key := st.data_keys category
    let decrypted : Except DecErr (List Nat) :=
      if metadata.algorithm = "fernet" then
        match encrypted_data with
        | .fernet tok => EncryptionService.decryptFernet key tok
        | _ => .error .malformedData
      else if metadata.algorithm = "aes_256_gcm" then
        match encrypted_data with
        | .gcm b => EncryptionService.decryptAesGcm key b metadata.encryption_level
        | _ => .error .malformedData
      else if metadata.algorithm = "aes_256_gcm_rsa" then
        match encrypted_data with
        | .gcmRsa b => EncryptionService.decryptAesRsa key b
        | _ => .error .malformedData
      else .error .unsupportedAlgorithm
    match decrypted with
    | .error e => .error e
    | .ok bs => deserialize bs
  | _, _ => .error .invalidMetadata

/-! ## Record-level operations (`encrypt_client_data`,
`decrypt_client_data`) -/

/-- A value stored in a client-record dictionary: either a plain value or
an opaque encrypted payload (the base64 string of the source). -/
inductive FieldContent where
  | plain (v : JsonVal)
  | cipher (blob : EncBlob)
  deriving DecidableEq, Repr

/-- The encrypted client record: the field dictionary plus the
`_encryption_metadata` dictionary (kept structurally separate; both are
insertion-ordered association lists, like Python dictionaries). -/
structure EncRecord where
  fields : List (String × FieldContent)
  meta : List (String × EncryptionMetadata)
  deriving DecidableEq, Repr

/-- One step of `encrypt_client_data`: if `field` is present in the input
record, encrypt it at the given category/level with the field-specific
artifact id and append ciphertext and metadata (the `result["success"]`
check of the source always passes in the modelled fragment; `k` separates
the per-call entropy). -/
def EncryptionService.encryptField (st : EncryptionService) (now : String)
    (rng : Nat) (client_data : List (String × JsonVal)) (k : Nat)
    (field : String) (cat : DataCategory) (lvl : EncryptionLevel)
    (idStem : String) (suffix : String)
    (acc : List (String × FieldContent) × List (String × EncryptionMetadata)) :
    List (String × FieldContent) × List (String × EncryptionMetadata) :=
  match List.lookup field client_data with
  | none => acc
  | some v =>
    let r := st.encrypt_data now (mixFold [rng, k]) v cat lvl (idStem ++ "_" ++ suffix)
    (acc.1 ++ [(field, .cipher r.encrypted_data)], acc.2 ++ [(field, r.metadata)])

/-- Model of `EncryptionService.encrypt_client_data` with its hard-coded
policy: `bioData` → (personal_info, STANDARD), `financialData` →
(financial_data, HIGH), `economicContext`/`objectives`/
`distributionPreferences` → (personal_info, BASIC); exactly the fields
`clientId`, `savedAt`, `lastUpdated`, `submittedBy` are copied through in
the clear, and every other field is absent from the output. -/
def EncryptionService.encrypt_client_data (st : EncryptionService)
    (now : String) (rng : Nat) (client_data : List (String × JsonVal)) :
    EncRecord :=
  let suffix := match List.lookup "clientId" client_data with
    | some v => pyStr v
    | none => "unknown"
  let acc := st.encryptField now rng client_data 0 "bioData"
    .personal_info .standard "bio" suffix ([], [])
  let acc := st.encryptField now rng client_data 1 "financialData"
    .financial_data .high "financial" suffix acc
  let acc := st.encryptField now rng client_data 2 "economicContext"
    .personal_info .basic "economicContext" suffix acc
  let acc := st.encryptField now rng client_data 3 "objectives"
    .personal_info .basic "objectives" suffix acc
  let acc := st.encryptField now rng client_data 4 "distributionPreferences"
    .personal_info .basic "distributionPreferences" suffix acc
  let passthrough := ["clientId", "savedAt", "lastUpdated", "submittedBy"].filterMap
    (fun f => (List.lookup f client_data).map (fun v => (f, FieldContent.plain v)))
  ⟨acc.1 ++ passthrough, acc.2⟩

/-- The per-field loop of `decrypt_client_data`: walk the metadata entries
in order; a field absent from the record is skipped, and the first field
whose decryption fails aborts the walk with that failure (the source
`return result` inside the loop), discarding every already-decrypted
value.  A plain value listed in the metadata would be fed to
`decrypt_data` as if it were base64 ciphertext and fail. -/
def EncryptionService.decryptFields (st : EncryptionService)
    (fields : List (String × FieldContent)) :
    List (String × EncryptionMetadata) →
    Except DecErr (List (String × FieldContent))
  | [] => .ok []
  | (field, md) :: rest =>
    match List.lookup field fields with
    | none => st.decryptFields fields rest
    | some (.plain _) => .error .malformedData
    | some (.cipher blob) =>
      match st.decrypt_data blob md with
      | .error e => .error e
      | .ok v =>
        match st.decryptFields fields rest with
        | .error e => .error e
        | .ok tl => .ok ((field, FieldContent.plain v) :: tl)

/-- Model of `EncryptionService.decrypt_client_data`: decrypt the fields
listed in `_encryption_metadata`, then copy every field not listed there
unchanged (the `field != "_encryption_metadata"` filter of the source is
structural here, since the metadata dictionary is a separate component). -/
def EncryptionService.decrypt_client_data (st : EncryptionService)
    (rec : EncRecord) : Except DecErr (List (String × FieldContent)) :=
  match st.decryptFields rec.fields rec.meta with
  | .error e => .error e
  | .ok dec =>
    let passthrough := rec.fields.filter (fun p => (List.lookup p.1 rec.meta).isNone)
    .ok (dec ++ passthrough)

theorem length_strBytes (s : String) : (strBytes s).length = s.length := by
  rw [show s.length = s.data.length from rfl]
  simp [strBytes]

theorem decryptFernet_encrypt (key nonce data : List Nat) :
    EncryptionService.decryptFernet key
      ⟨nonce, maskBytes key nonce data, ⟨key, nonce, maskBytes key nonce data⟩⟩ = .ok data := by
  unfold EncryptionService.decryptFernet
  rw [if_pos rfl, maskBytes_maskBytes]

theorem decryptAesGcm_encrypt_std (key nonce data : List Nat) :
    EncryptionService.decryptAesGcm key
      ⟨nonce, ⟨key, nonce, maskBytes key nonce data⟩, maskBytes key nonce data⟩ "standard"
      = .ok data := by
  unfold EncryptionService.decryptAesGcm
  rw [if_pos rfl, if_neg (by decide : ¬("standard" = "high")), maskBytes_maskBytes]

theorem enhanced_unwrap (timestamp integrity_hash data : List Nat)
    (hts : timestamp.length < 4294967296) (hih : integrity_hash.length = 32) :
    ((natToBe4 timestamp.length ++ timestamp ++ integrity_hash ++ data).drop
        (4 + beToNat ((natToBe4 timestamp.length ++ timestamp ++ integrity_hash ++ data).take 4) + 32) = data)
    ∧ (((natToBe4 timestamp.length ++ timestamp ++ integrity_hash ++ data).drop
        (4 + beToNat ((natToBe4 timestamp.length ++ timestamp ++ integrity_hash ++ data).take 4))).take 32
        = integrity_hash) := by
  have htake : (natToBe4 timestamp.length ++ timestamp ++ integrity_hash ++ data).take 4
      = natToBe4 timestamp.length := by
    rw [List.append_assoc, List.append_assoc]
    exact List.take_left' (length_natToBe4 _)
  have hbe : beToNat ((natToBe4 timestamp.length ++ timestamp ++ integrity_hash ++ data).take 4)
      = timestamp.length := by
    rw [htake, beToNat_natToBe4 _ hts]
  constructor
  · rw [hbe, show natToBe4 timestamp.length ++ timestamp ++ integrity_hash ++ data
        = (natToBe4 timestamp.length ++ timestamp ++ integrity_hash) ++ data by
        simp [List.append_assoc]]
    exact List.drop_left' (by simp [length_natToBe4, hih]; omega)
  · rw [hbe, show natToBe4 timestamp.length ++ timestamp ++ integrity_hash ++ data
        = (natToBe4 timestamp.length ++ timestamp) ++ (integrity_hash ++ data) by
        simp [List.append_assoc]]
    rw [List.drop_left' (by simp [length_natToBe4])]
    exact List.take_left' hih

theorem decryptAesGcm_encrypt_high (key nonce timestamp data : List Nat)
    (hts : timestamp.length < 4294967296) :
    EncryptionService.decryptAesGcm key
      ⟨nonce,
       ⟨key, nonce, maskBytes key nonce (natToBe4 timestamp.length ++ timestamp ++ sha256M data ++ data)⟩,
       maskBytes key nonce (natToBe4 timestamp.length ++ timestamp ++ sha256M data ++ data)⟩ "high"
      = .ok data := by
  have h := enhanced_unwrap timestamp (sha256M data) data hts (length_sha256M data)
  unfold EncryptionService.decryptAesGcm
  rw [if_pos rfl, maskBytes_maskBytes, if_pos rfl]
  simp only [h.1, h.2]
  simp

theorem decryptAesRsa_encrypt (catKey aes_key iv data : List Nat) (rsaSeed : Nat) :
    EncryptionService.decryptAesRsa catKey
      ⟨⟨rsaSeed, aes_key⟩, ⟨catKey, rsaSeed⟩, iv, ⟨aes_key, iv, maskBytes aes_key iv data⟩,
       maskBytes aes_key iv data⟩ = .ok data := by
  unfold EncryptionService.decryptAesRsa openPrivateKey rsaOaepDecrypt
  simp [maskBytes_maskBytes]

theorem decrypt_encrypt_ok (st : EncryptionService) (now : String) (rng : Nat)
    (data : JsonVal) (category : DataCategory) (lvl : EncryptionLevel)
    (data_id : String) (hnow : now.length < 4294967296) :
    st.decrypt_data (st.encrypt_data now rng data category lvl data_id).encrypted_data
      (st.encrypt_data now rng data category lvl data_id).metadata
      = .ok (jsonReinterpret data) := by
  cases lvl with
  | basic =>
    simp only [EncryptionService.encrypt_data, EncryptionService.encryptFernet,
      EncryptionService.decrypt_data, encryptionLevelOfString, dataCategoryOfString_value]
    simp [decryptFernet_encrypt, deserialize_strBytes]
  | standard =>
    simp only [EncryptionService.encrypt_data, EncryptionService.encryptAesGcm,
      EncryptionService.decrypt_data, encryptionLevelOfString, dataCategoryOfString_value]
    simp [decryptAesGcm_encrypt_std, deserialize_strBytes]
  | high =>
    simp only [EncryptionService.encrypt_data, EncryptionService.encryptAesGcmEnhanced,
      EncryptionService.decrypt_data, encryptionLevelOfString, dataCategoryOfString_value]
    simp
    have h2 := decryptAesGcm_encrypt_high (st.data_keys category) (randBytes rng 1 12)
      (strBytes now) (strBytes (serializePy data)) (by rw [length_strBytes]; exact hnow)
    rw [List.append_assoc, List.append_assoc] at h2
    rw [h2]
    simp [deserialize_strBytes]
  | maximum =>
    simp only [EncryptionService.encrypt_data, EncryptionService.encryptAesRsa,
      EncryptionService.decrypt_data, encryptionLevelOfString, dataCategoryOfString_value]
    simp [decryptAesRsa_encrypt, deserialize_strBytes]

/-! ## Concrete fixtures for the claim instances -/

/-- Concrete service instance (master key injected at construction). -/
def svc0 : EncryptionService := EncryptionService.mkService (strBytes "hnc-master-key")

/-- Concrete timestamp used where the source calls `datetime.now()`. -/
def now0 : String := "2025-06-01T00:00:00"

/-- Projection of a GCM blob out of an encrypted payload (dummy for the
other shapes; used only on payloads known to be GCM blobs). -/
def gcmBlobOf : EncBlob → GcmBlob
  | .gcm b => b
  | _ => ⟨[], ⟨[], [], []⟩, []⟩

/-- C1 counterexample: the string value `"123"` encrypts fine but decrypts
to the JSON number `123`, which is not equal to the original input — the
round trip does not return the original value for JSON-parseable
strings. -/
theorem c1_counterexample :
    svc0.decrypt_data
      (svc0.encrypt_data now0 3 (.str "123") .personal_info .basic "d1").encrypted_data
      (svc0.encrypt_data now0 3 (.str "123") .personal_info .basic "d1").metadata
      = .ok (.num 123)
    ∧ JsonVal.num 123 ≠ JsonVal.str "123" :=
  ⟨rfl, by decide⟩

/-- C1 (amended): for every encryption level, category, input value and
artifact id, decryption of the encrypted output succeeds and yields the
JSON reinterpretation of the serialized input — equal to the original
exactly when the serialization parses back to the original value (in
particular not for strings that parse as JSON, booleans, or `None`). -/
theorem c1_roundtrip_json_reinterpreted (st : EncryptionService) (now : String)
    (rng : Nat) (data : JsonVal) (category : DataCategory)
    (lvl : EncryptionLevel) (data_id : String)
    (hnow : now.length < 4294967296) :
    st.decrypt_data (st.encrypt_data now rng data category lvl data_id).encrypted_data
      (st.encrypt_data now rng data category lvl data_id).metadata
      = .ok (jsonReinterpret data) :=
  decrypt_encrypt_ok st now rng data category lvl data_id hnow

/-- C1 witness: concrete High-level round trip of a non-JSON string. -/
theorem c1_witness :
    svc0.decrypt_data
      (svc0.encrypt_data now0 3 (.str "hello world") .legal_documents .high "w1").encrypted_data
      (svc0.encrypt_data now0 3 (.str "hello world") .legal_documents .high "w1").metadata
      = .ok (.str "hello world") :=
  c1_roundtrip_json_reinterpreted svc0 now0 3 (.str "hello world")
    .legal_documents .high "w1" (by decide)

/-- Service state after a first key rotation. -/
def svcR1 : EncryptionService := svc0.rotate_keys "20250101_000000"

/-- Artifact produced between the two rotations. -/
def artifactC2 : EncryptResult :=
  svcR1.encrypt_data now0 7 (.str "secret-data") .personal_info .standard "c2art"

/-- Service state after the second key rotation. -/
def svcR2 : EncryptionService := svcR1.rotate_keys "20251231_235959"

/-- C2: an artifact encrypted between two rotations decrypts before the
second rotation but fails afterwards with an authentication error —
`rotate_keys` replaces the working keys without retaining the prior
version's keys, contradicting the claim (and the source's own success
message "Old encrypted data can still be decrypted."). -/
theorem c2_rotation_destroys_old_artifacts :
    svcR1.decrypt_data artifactC2.encrypted_data artifactC2.metadata
      = .ok (.str "secret-data")
    ∧ svcR2.decrypt_data artifactC2.encrypted_data artifactC2.metadata
      = .error .authenticationError
    ∧ svcR2.data_keys .personal_info ≠ svcR1.data_keys .personal_info :=
  ⟨rfl, rfl, by decide⟩

/-- Artifact of the C6 concrete scenario. -/
def artifactC6 : EncryptResult :=
  svc0.encrypt_data now0 5 (.str "123-45-6789") .personal_info .standard "f1"

/-- C6 counterexample: the metadata algorithm identifier the source writes
is `"aes_256_gcm"`, not the claimed `"aes256-gcm-v1"`. -/
theorem c6_counterexample :
    artifactC6.metadata.algorithm = "aes_256_gcm"
    ∧ "aes_256_gcm" ≠ "aes256-gcm-v1" :=
  ⟨rfl, by decide⟩

/-- C6 (amended): encrypting `"123-45-6789"` at STANDARD under the
personal-information category with id `"f1"` yields algorithm id
`"aes_256_gcm"`, a 12-byte nonce, a packed blob exactly 28 bytes longer
than the plaintext (hence at least 28 bytes longer), and the round trip
returns `"123-45-6789"` exactly. -/
theorem c6_concrete_scenario :
    artifactC6.metadata.algorithm = "aes_256_gcm"
    ∧ (gcmBlobOf artifactC6.encrypted_data).nonce.length = 12
    ∧ (gcmBlobOf artifactC6.encrypted_data).byteLen
        = (strBytes "123-45-6789").length + 28
    ∧ (gcmBlobOf artifactC6.encrypted_data).byteLen
        ≥ (strBytes "123-45-6789").length + 28
    ∧ svc0.decrypt_data artifactC6.encrypted_data artifactC6.metadata
        = .ok (.str "123-45-6789") :=
  ⟨rfl, rfl, rfl, by decide, rfl⟩

/-- Derivation formula exactly as the claim words it: salt is the hash of
the plain concatenation `category || version`, with no separator.  Kept
for comparison against the source derivation. -/
def specDeriveWorkingKey (master : List Nat) (category : DataCategory)
    (version : String) : List Nat :=
  pbkdf2Model master (sha256M (strBytes (category.value ++ version))) 100000 32

/-- C7 counterexample: the source salts with
`f"{category.value}_{version}"` — an underscore separates the parts — so
its derived key differs from the claimed `SHA256(category || version)`
formula, whose salt preimage is a different string. -/
theorem c7_counterexample :
    deriveCategoryKey (strBytes "hnc-master-key") "v1.0" .personal_info
      ≠ specDeriveWorkingKey (strBytes "hnc-master-key") .personal_info "v1.0"
    ∧ ("personal_info" ++ "_" ++ "v1.0" : String) ≠ "personal_info" ++ "v1.0" :=
  ⟨by decide, by decide⟩

/-- C7 (amended): the derived working key is PBKDF2-HMAC-SHA256 of the
master secret with salt `SHA256(category || "_" || version)`, 100000
iterations and 32-byte output; derivation is deterministic and always
returns 32 bytes. -/
theorem c7_derive_key_formula (master : List Nat) (key_version : String)
    (category : DataCategory) :
    deriveCategoryKey master key_version category
      = pbkdf2Model master
          (sha256M (strBytes (category.value ++ "_" ++ key_version))) 100000 32
    ∧ (deriveCategoryKey master key_version category).length = 32
    ∧ deriveCategoryKey master key_version category
      = deriveCategoryKey master key_version category :=
  ⟨rfl, length_pbkdf2Model _ _ _ _, rfl⟩

/-- C8 counterexample: encrypting the empty string succeeds — the artifact
has a zero-byte ciphertext and decrypts back to the empty string; no
strategy rejects empty plaintext. -/
theorem c8_counterexample :
    (gcmBlobOf (svc0.encrypt_data now0 9 (.str "") .personal_info .standard "e0").encrypted_data).ct
      = []
    ∧ svc0.decrypt_data
        (svc0.encrypt_data now0 9 (.str "") .personal_info .standard "e0").encrypted_data
        (svc0.encrypt_data now0 9 (.str "") .personal_info .standard "e0").metadata
      = .ok (.str "") :=
  ⟨rfl, rfl⟩

/-- C8 (amended): for every category and level, encrypting empty plaintext
is accepted — it produces an artifact that decrypts back to the empty
string rather than failing. -/
theorem c8_empty_plaintext_accepted (st : EncryptionService) (now : String)
    (rng : Nat) (category : DataCategory) (lvl : EncryptionLevel)
    (data_id : String) (hnow : now.length < 4294967296) :
    st.decrypt_data (st.encrypt_data now rng (.str "") category lvl data_id).encrypted_data
      (st.encrypt_data now rng (.str "") category lvl data_id).metadata
      = .ok (.str "") :=
  decrypt_encrypt_ok st now rng (.str "") category lvl data_id hnow

/-- C8 witness: empty plaintext round-trips at MAXIMUM level. -/
theorem c8_witness :
    svc0.decrypt_data
      (svc0.encrypt_data now0 9 (.str "") .system_config .maximum "e1").encrypted_data
      (svc0.encrypt_data now0 9 (.str "") .system_config .maximum "e1").metadata
      = .ok (.str "") :=
  c8_empty_plaintext_accepted svc0 now0 9 .system_config .maximum "e1" (by decide)

/-- C10: decryption deserializes with a JSON-first fallback: a string input
whose content parses as JSON comes back as the parsed value, and one whose
content does not parse comes back as the raw string. -/
theorem c10_json_first_deserialization (st : EncryptionService) (now : String)
    (rng : Nat) (s : String) (category : DataCategory) (lvl : EncryptionLevel)
    (data_id : String) (hnow : now.length < 4294967296) :
    (∀ v, parseJson s = some v →
      st.decrypt_data (st.encrypt_data now rng (.str s) category lvl data_id).encrypted_data
        (st.encrypt_data now rng (.str s) category lvl data_id).metadata = .ok v)
    ∧ (parseJson s = none →
      st.decrypt_data (st.encrypt_data now rng (.str s) category lvl data_id).encrypted_data
        (st.encrypt_data now rng (.str s) category lvl data_id).metadata = .ok (.str s)) := by
  have h := decrypt_encrypt_ok st now rng (.str s) category lvl data_id hnow
  have hs : serializePy (JsonVal.str s) = s := rfl
  constructor
  · intro v hv
    rw [h]
    unfold jsonReinterpret
    rw [hs, hv]
  · intro hv
    rw [h]
    unfold jsonReinterpret
    rw [hs, hv]

/-- C10 witness: the string `"123"` comes back as the number `123`. -/
theorem c10_witness :
    svc0.decrypt_data
      (svc0.encrypt_data now0 4 (.str "123") .session_data .standard "j1").encrypted_data
      (svc0.encrypt_data now0 4 (.str "123") .session_data .standard "j1").metadata
      = .ok (.num 123) :=
  (c10_json_first_deserialization svc0 now0 4 "123" .session_data .standard "j1"
    (by decide)).1 (.num 123) rfl

/-- Tag-verification failure of the GCM path: whenever the stored tag is
not the tag of (key, nonce, ciphertext), decryption fails with an
authentication error before any payload handling (including the High-level
integrity branch). -/
theorem decryptAesGcm_tamper (key : List Nat) (b : GcmBlob) (mdLevel : String)
    (h : b.tag ≠ ⟨key, b.nonce, b.ct⟩) :
    EncryptionService.decryptAesGcm key b mdLevel = .error .authenticationError := by
  unfold EncryptionService.decryptAesGcm
  rw [if_neg h]

/-- C5: for every High-level GCM artifact whose tag verifies (it was built
with the right key over some payload) but whose embedded hash slice does
not match the hash recomputed over the recovered original slice,
`decrypt_data` fails with the integrity error and returns no plaintext. -/
theorem c5_integrity_mismatch (st : EncryptionService) (cat : DataCategory)
    (nonce payload : List Nat) (md : EncryptionMetadata)
    (hlvl : md.encryption_level = "high") (hcat : md.data_category = cat.value)
    (halg : md.algorithm = "aes_256_gcm")
    (hmm : (payload.drop (4 + beToNat (payload.take 4))).take 32
        ≠ sha256M (payload.drop (4 + beToNat (payload.take 4) + 32))) :
    st.decrypt_data
      (.gcm ⟨nonce, ⟨st.data_keys cat, nonce, maskBytes (st.data_keys cat) nonce payload⟩,
        maskBytes (st.data_keys cat) nonce payload⟩) md
      = .error .integrityError := by
  have hgcm : EncryptionService.decryptAesGcm (st.data_keys cat)
      ⟨nonce, ⟨st.data_keys cat, nonce, maskBytes (st.data_keys cat) nonce payload⟩,
        maskBytes (st.data_keys cat) nonce payload⟩ "high"
      = .error .integrityError := by
    unfold EncryptionService.decryptAesGcm
    rw [if_pos rfl, maskBytes_maskBytes, if_pos rfl, if_neg hmm]
  unfold EncryptionService.decrypt_data
  rw [hlvl, hcat, halg, dataCategoryOfString_value]
  simp only [encryptionLevelOfString]
  simp [hgcm]

/-- Nonce of the C5 witness blob. -/
def nonceC5 : List Nat := randBytes 1 1 12

/-- Hand-crafted High-level payload whose embedded 32-byte hash slice (all
zeros) does not match the hash of the original slice `[65]`. -/
def payloadC5 : List Nat := natToBe4 0 ++ List.replicate 32 0 ++ [65]

/-- Metadata of the C5 witness artifact. -/
def mdC5 : EncryptionMetadata :=
  ⟨"c5", "high", "financial_data", now0, "v1.0", "aes_256_gcm", none, some nonceC5⟩

/-- C5 witness: the hand-crafted payload passes AEAD verification but fails
the embedded-hash comparison. -/
theorem c5_witness :
    svc0.decrypt_data
      (.gcm ⟨nonceC5, ⟨svc0.data_keys .financial_data, nonceC5,
        maskBytes (svc0.data_keys .financial_data) nonceC5 payloadC5⟩,
        maskBytes (svc0.data_keys .financial_data) nonceC5 payloadC5⟩) mdC5
      = .error .integrityError :=
  c5_integrity_mismatch svc0 .financial_data nonceC5 payloadC5 mdC5 rfl rfl rfl (by decide)

/-- Maximum level: a sealed private key whose seal key does not match the
category working key fails to open. -/
theorem decryptAesRsa_sealKey_ne (key : List Nat) (b : MaxBlob)
    (h : b.encryptedPrivateKey.sealKey ≠ key) :
    EncryptionService.decryptAesRsa key b = .error .authenticationError := by
  unfold EncryptionService.decryptAesRsa openPrivateKey
  rw [if_neg h]

/-- Maximum level: an OAEP ciphertext under a different ephemeral public
key than the recovered private key fails to unwrap. -/
theorem decryptAesRsa_seed_ne (key : List Nat) (b : MaxBlob)
    (hsk : b.encryptedPrivateKey.sealKey = key)
    (h : b.encryptedAesKey.pubSeed ≠ b.encryptedPrivateKey.privSeed) :
    EncryptionService.decryptAesRsa key b = .error .authenticationError := by
  unfold EncryptionService.decryptAesRsa openPrivateKey rsaOaepDecrypt
  simp [hsk, h]

/-- Maximum level: a GCM tag mismatch over the unwrapped AES key fails. -/
theorem decryptAesRsa_tag_ne (key : List Nat) (b : MaxBlob)
    (hsk : b.encryptedPrivateKey.sealKey = key)
    (hps : b.encryptedAesKey.pubSeed = b.encryptedPrivateKey.privSeed)
    (h : b.authTag ≠ ⟨b.encryptedAesKey.payload, b.iv, b.ciphertext⟩) :
    EncryptionService.decryptAesRsa key b = .error .authenticationError := by
  unfold EncryptionService.decryptAesRsa openPrivateKey rsaOaepDecrypt
  simp [hsk, hps, h]

/-- GCM blob with an altered nonce region fails authentication. -/
theorem gcm_tamper_nonce (key n n' c : List Nat) (mdLevel : String) (hne : n' ≠ n) :
    EncryptionService.decryptAesGcm key ⟨n', ⟨key, n, c⟩, c⟩ mdLevel
      = .error .authenticationError :=
  decryptAesGcm_tamper key ⟨n', ⟨key, n, c⟩, c⟩ mdLevel
    (fun heq => hne (congrArg IdealTag.nonce heq).symm)

/-- GCM blob with an altered tag region fails authentication. -/
theorem gcm_tamper_tag (key n c : List Nat) (t' : IdealTag) (mdLevel : String)
    (hne : t' ≠ ⟨key, n, c⟩) :
    EncryptionService.decryptAesGcm key ⟨n, t', c⟩ mdLevel
      = .error .authenticationError :=
  decryptAesGcm_tamper key ⟨n, t', c⟩ mdLevel hne

/-- GCM blob with an altered ciphertext region fails authentication. -/
theorem gcm_tamper_ct (key n c c' : List Nat) (mdLevel : String) (hne : c' ≠ c) :
    EncryptionService.decryptAesGcm key ⟨n, ⟨key, n, c⟩, c'⟩ mdLevel
      = .error .authenticationError :=
  decryptAesGcm_tamper key ⟨n, ⟨key, n, c⟩, c'⟩ mdLevel
    (fun heq => hne (congrArg IdealTag.ct heq).symm)

/-- Maximum blob with an altered wrapped AES key fails. -/
theorem rsa_tamper_aesKey (catKey aes iv ct : List Nat) (seed : Nat)
    (k' : RsaCiphertext) (hne : k' ≠ ⟨seed, aes⟩) :
    EncryptionService.decryptAesRsa catKey
      ⟨k', ⟨catKey, seed⟩, iv, ⟨aes, iv, ct⟩, ct⟩ = .error .authenticationError := by
  by_cases hps : k'.pubSeed = seed
  · by_cases hpl : k'.payload = aes
    · exact absurd (by cases k'; simp_all) hne
    · exact decryptAesRsa_tag_ne catKey _ rfl hps
        (fun heq => hpl (congrArg IdealTag.key heq).symm)
  · exact decryptAesRsa_seed_ne catKey _ rfl hps

/-- Maximum blob with an altered sealed private key fails. -/
theorem rsa_tamper_priv (catKey aes iv ct : List Nat) (seed : Nat)
    (p' : SealedPrivateKey) (hne : p' ≠ ⟨catKey, seed⟩) :
    EncryptionService.decryptAesRsa catKey
      ⟨⟨seed, aes⟩, p', iv, ⟨aes, iv, ct⟩, ct⟩ = .error .authenticationError := by
  by_cases hsk : p'.sealKey = catKey
  · by_cases hsd : p'.privSeed = seed
    · exact absurd (by cases p'; simp_all) hne
    · exact decryptAesRsa_seed_ne catKey _ hsk (fun heq => hsd heq.symm)
  · exact decryptAesRsa_sealKey_ne catKey _ hsk

/-- Maximum blob with an altered IV component fails. -/
theorem rsa_tamper_iv (catKey aes iv iv' ct : List Nat) (seed : Nat) (hne : iv' ≠ iv) :
    EncryptionService.decryptAesRsa catKey
      ⟨⟨seed, aes⟩, ⟨catKey, seed⟩, iv', ⟨aes, iv, ct⟩, ct⟩ = .error .authenticationError :=
  decryptAesRsa_tag_ne catKey _ rfl rfl
    (fun heq => hne (congrArg IdealTag.nonce heq).symm)

/-- Maximum blob with an altered auth-tag component fails. -/
theorem rsa_tamper_tag (catKey aes iv ct : List Nat) (seed : Nat) (t' : IdealTag)
    (hne : t' ≠ ⟨aes, iv, ct⟩) :
    EncryptionService.decryptAesRsa catKey
      ⟨⟨seed, aes⟩, ⟨catKey, seed⟩, iv, t', ct⟩ = .error .authenticationError :=
  decryptAesRsa_tag_ne catKey _ rfl rfl hne

/-- Maximum blob with an altered ciphertext component fails. -/
theorem rsa_tamper_ct (catKey aes iv ct c' : List Nat) (seed : Nat) (hne : c' ≠ ct) :
    EncryptionService.decryptAesRsa catKey
      ⟨⟨seed, aes⟩, ⟨catKey, seed⟩, iv, ⟨aes, iv, ct⟩, c'⟩ = .error .authenticationError :=
  decryptAesRsa_tag_ne catKey _ rfl rfl
    (fun heq => hne (congrArg IdealTag.ct heq).symm)

/-- Single-component alterations of an encrypted payload: the model of
flipping bits within one region of the serialized artifact (nonce region,
tag region, or ciphertext region of a GCM blob; one entry of the
Maximum-level component dictionary). -/
inductive TamperedBlob : EncBlob → EncBlob → Prop where
  | gcmNonce {n n' : List Nat} {t : IdealTag} {c : List Nat} :
      n' ≠ n → TamperedBlob (.gcm ⟨n, t, c⟩) (.gcm ⟨n', t, c⟩)
  | gcmTagAlt {n : List Nat} {t t' : IdealTag} {c : List Nat} :
      t' ≠ t → TamperedBlob (.gcm ⟨n, t, c⟩) (.gcm ⟨n, t', c⟩)
  | gcmCt {n : List Nat} {t : IdealTag} {c c' : List Nat} :
      c' ≠ c → TamperedBlob (.gcm ⟨n, t, c⟩) (.gcm ⟨n, t, c'⟩)
  | rsaAesKey {b : MaxBlob} {k' : RsaCiphertext} :
      k' ≠ b.encryptedAesKey →
      TamperedBlob (.gcmRsa b) (.gcmRsa { b with encryptedAesKey := k' })
  | rsaPrivKey {b : MaxBlob} {p' : SealedPrivateKey} :
      p' ≠ b.encryptedPrivateKey →
      TamperedBlob (.gcmRsa b) (.gcmRsa { b with encryptedPrivateKey := p' })
  | rsaIv {b : MaxBlob} {iv' : List Nat} :
      iv' ≠ b.iv → TamperedBlob (.gcmRsa b) (.gcmRsa { b with iv := iv' })
  | rsaTagAlt {b : MaxBlob} {t' : IdealTag} :
      t' ≠ b.authTag → TamperedBlob (.gcmRsa b) (.gcmRsa { b with authTag := t' })
  | rsaCt {b : MaxBlob} {c' : List Nat} :
      c' ≠ b.ciphertext → TamperedBlob (.gcmRsa b) (.gcmRsa { b with ciphertext := c' })

/-- C4: for a Standard, High or Maximum artifact, any single-component
alteration of the encrypted payload makes `decrypt_data` fail with an
authentication error; no altered plaintext is ever returned, and the tag
verification precedes any payload handling. -/
theorem c4_tamper_rejected (st : EncryptionService) (now : String) (rng : Nat)
    (data : JsonVal) (category : DataCategory) (lvl : EncryptionLevel)
    (data_id : String) (blob' : EncBlob) (hlvl : lvl ≠ .basic)
    (ht : TamperedBlob (st.encrypt_data now rng data category lvl data_id).encrypted_data blob') :
    st.decrypt_data blob' (st.encrypt_data now rng data category lvl data_id).metadata
      = .error .authenticationError := by
  cases lvl with
  | basic => exact absurd rfl hlvl
  | standard =>
    simp only [EncryptionService.encrypt_data, EncryptionService.encryptAesGcm] at ht ⊢
    simp only [EncryptionService.decrypt_data, encryptionLevelOfString,
      dataCategoryOfString_value]
    cases ht with
    | gcmNonce hne => simp [gcm_tamper_nonce _ _ _ _ _ hne]
    | gcmTagAlt hne => simp [gcm_tamper_tag _ _ _ _ _ hne]
    | gcmCt hne => simp [gcm_tamper_ct _ _ _ _ _ hne]
  | high =>
    simp only [EncryptionService.encrypt_data, EncryptionService.encryptAesGcmEnhanced] at ht ⊢
    simp only [EncryptionService.decrypt_data, encryptionLevelOfString,
      dataCategoryOfString_value]
    cases ht with
    | gcmNonce hne => simp [gcm_tamper_nonce _ _ _ _ _ hne]
    | gcmTagAlt hne =>
      rw [List.append_assoc, List.append_assoc] at hne
      simp [gcm_tamper_tag _ _ _ _ _ hne]
    | gcmCt hne =>
      rw [List.append_assoc, List.append_assoc] at hne
      simp [gcm_tamper_ct _ _ _ _ _ hne]
  | maximum =>
    simp only [EncryptionService.encrypt_data, EncryptionService.encryptAesRsa] at ht ⊢
    simp only [EncryptionService.decrypt_data, encryptionLevelOfString,
      dataCategoryOfString_value]
    cases ht with
    | rsaAesKey hne => simp [rsa_tamper_aesKey _ _ _ _ _ _ hne]
    | rsaPrivKey hne => simp [rsa_tamper_priv _ _ _ _ _ _ hne]
    | rsaIv hne => simp [rsa_tamper_iv _ _ _ _ _ _ hne]
    | rsaTagAlt hne => simp [rsa_tamper_tag _ _ _ _ _ _ hne]
    | rsaCt hne => simp [rsa_tamper_ct _ _ _ _ _ _ hne]

/-- Alter the first ciphertext byte (the model of a bit flip there). -/
def bumpBytes : List Nat → List Nat
  | [] => [1]
  | b :: bs => ((b + 1) % 256) :: bs

/-- GCM blob of the C4 witness artifact. -/
def gblob4 : GcmBlob :=
  gcmBlobOf (svc0.encrypt_data now0 21 (.str "tamper-me") .personal_info .standard "t1").encrypted_data

/-- C4 witness: altering the first ciphertext byte of a concrete Standard
artifact makes decryption fail with an authentication error. -/
theorem c4_witness :
    svc0.decrypt_data (.gcm ⟨gblob4.nonce, gblob4.tag, bumpBytes gblob4.ct⟩)
      (svc0.encrypt_data now0 21 (.str "tamper-me") .personal_info .standard "t1").metadata
      = .error .authenticationError :=
  c4_tamper_rejected svc0 now0 21 (.str "tamper-me") .personal_info .standard "t1"
    (.gcm ⟨gblob4.nonce, gblob4.tag, bumpBytes gblob4.ct⟩) (by decide)
    (TamperedBlob.gcmCt (by decide))

/-- Record decryption aborts at a failing entry: if every metadata entry of
the prefix decrypts successfully and the next entry's field is present but
fails to decrypt with error `e`, the whole walk returns `.error e`, whatever
the remaining entries hold. -/
theorem decryptFields_append_fail (st : EncryptionService)
    (fields : List (String × FieldContent))
    (meta1 : List (String × EncryptionMetadata)) (field : String)
    (md : EncryptionMetadata) (rest : List (String × EncryptionMetadata))
    (blob : EncBlob) (e : DecErr) (vs : List (String × FieldContent))
    (hpre : st.decryptFields fields meta1 = .ok vs)
    (hlook : List.lookup field fields = some (.cipher blob))
    (hfail : st.decrypt_data blob md = .error e) :
    st.decryptFields fields (meta1 ++ (field, md) :: rest) = .error e := by
  induction meta1 generalizing vs with
  | nil =>
    simp only [List.nil_append, EncryptionService.decryptFields, hlook, hfail]
  | cons p meta1 ih =>
    obtain ⟨f1, md1⟩ := p
    cases hl : List.lookup f1 fields with
    | none =>
      simp only [EncryptionService.decryptFields, hl] at hpre
      simp only [List.cons_append, EncryptionService.decryptFields, hl]
      exact ih vs hpre
    | some fc =>
      cases fc with
      | plain v =>
        simp only [EncryptionService.decryptFields, hl] at hpre
        exact absurd hpre (by simp)
      | cipher b =>
        simp only [EncryptionService.decryptFields, hl] at hpre
        cases hd : st.decrypt_data b md1 with
        | error e1 =>
          rw [hd] at hpre
          exact absurd hpre (by simp)
        | ok v =>
          rw [hd] at hpre
          cases hrest : st.decryptFields fields meta1 with
          | error e1 =>
            rw [hrest] at hpre
            exact absurd hpre (by simp)
          | ok tl =>
            simp only [List.cons_append, EncryptionService.decryptFields, hl, hd,
              List.append_eq]
            rw [ih tl hrest]

/-- C3 counterexample fixture: a client record with two encrypted fields. -/
def clientData0 : List (String × JsonVal) :=
  [("clientId", .str "c1"),
   ("bioData", .obj [("fullName", .str "John Doe")]),
   ("financialData", .obj [("assets", .arr [.num 100])])]

/-- Encrypted form of `clientData0`. -/
def encRec0 : EncRecord := svc0.encrypt_client_data now0 11 clientData0

/-- Alter the ciphertext of one named field of an encrypted record. -/
def tamperField (rec : EncRecord) (f : String) : EncRecord :=
  ⟨rec.fields.map (fun p =>
      if p.1 = f then
        (p.1, match p.2 with
          | .cipher (.gcm b) => .cipher (.gcm ⟨b.nonce, b.tag, bumpBytes b.ct⟩)
          | x => x)
      else p),
   rec.meta⟩

/-- C3 counterexample: with `financialData` tampered, record decryption
returns a bare failure and none of the successfully decryptable fields
(`bioData` decrypts fine, as the untampered record shows) — it does not
report the failure per-field alongside the other values. -/
theorem c3_counterexample :
    svc0.decrypt_client_data (tamperField encRec0 "financialData")
      = .error .authenticationError
    ∧ svc0.decrypt_client_data encRec0
      = .ok [("bioData", .plain (.obj [("fullName", .str "John Doe")])),
             ("financialData", .plain (.obj [("assets", .arr [.num 100])])),
             ("clientId", .plain (.str "c1"))] :=
  ⟨rfl, rfl⟩

/-- C3 (amended): record decryption aborts on a failing field: if the
metadata entries before some entry all decrypt successfully and that
entry's field is present but fails to decrypt with error `e`,
`decrypt_client_data` returns `.error e` and none of the decrypted values
of the other fields. -/
theorem c3_first_failure_aborts (st : EncryptionService) (rec : EncRecord)
    (meta1 : List (String × EncryptionMetadata)) (field : String)
    (md : EncryptionMetadata) (rest : List (String × EncryptionMetadata))
    (blob : EncBlob) (e : DecErr) (vs : List (String × FieldContent))
    (hmeta : rec.meta = meta1 ++ (field, md) :: rest)
    (hpre : st.decryptFields rec.fields meta1 = .ok vs)
    (hlook : List.lookup field rec.fields = some (.cipher blob))
    (hfail : st.decrypt_data blob md = .error e) :
    st.decrypt_client_data rec = .error e := by
  unfold EncryptionService.decrypt_client_data
  rw [hmeta, decryptFields_append_fail st rec.fields meta1 field md rest blob e vs
    hpre hlook hfail]

/-- Record with the first-listed field (`bioData`) tampered. -/
def recC3 : EncRecord := tamperField encRec0 "bioData"

/-- Metadata entry of the tampered first field of `recC3`. -/
def mdC3 : EncryptionMetadata :=
  match recC3.meta with
  | (_, md) :: _ => md
  | [] => ⟨"", "", "", "", "", "", none, none⟩

/-- Tampered payload stored under `bioData` in `recC3`. -/
def blobC3 : EncBlob :=
  match List.lookup "bioData" recC3.fields with
  | some (.cipher b) => b
  | _ => .gcm ⟨[], ⟨[], [], []⟩, []⟩

/-- C3 witness: the tampered first field aborts the whole record decryption
with its authentication error. -/
theorem c3_witness :
    svc0.decrypt_client_data recC3 = .error .authenticationError :=
  c3_first_failure_aborts svc0 recC3 [] "bioData" mdC3 recC3.meta.tail blobC3
    .authenticationError [] (by decide) rfl (by decide) rfl

/-- Client record holding every policy-covered field, every whitelisted
passthrough field, and one extra field `f` outside both. -/
def policyRecord (vCid vBio vFin vEco vObj vDis vSav vLas vSub vExtra : JsonVal)
    (f : String) : List (String × JsonVal) :=
  [("clientId", vCid), ("bioData", vBio), ("financialData", vFin),
   ("economicContext", vEco), ("objectives", vObj),
   ("distributionPreferences", vDis), ("savedAt", vSav),
   ("lastUpdated", vLas), ("submittedBy", vSub), (f, vExtra)]

/-- C9 (amended): under the hard-coded policy of `encrypt_client_data`,
every whitelisted field (`clientId`, `savedAt`, `lastUpdated`,
`submittedBy`) passes through unmodified as a plain value, any field
outside both the policy and the whitelist is dropped from the output (not
passed through), and every policy-covered field (`bioData`,
`financialData`, `economicContext`, `objectives`,
`distributionPreferences`) round-trips through record encryption and
decryption up to JSON reinterpretation of its serialized form. -/
theorem c9_policy_and_passthrough (st : EncryptionService) (now : String) (rng : Nat)
    (vCid vBio vFin vEco vObj vDis vSav vLas vSub vExtra : JsonVal) (f : String)
    (hf : f ∉ (["bioData", "financialData", "economicContext", "objectives",
      "distributionPreferences", "clientId", "savedAt", "lastUpdated",
      "submittedBy"] : List String))
    (hnow : now.length < 4294967296) :
    List.lookup "clientId"
      (st.encrypt_client_data now rng
        (policyRecord vCid vBio vFin vEco vObj vDis vSav vLas vSub vExtra f)).fields
      = some (.plain vCid)
    ∧ List.lookup "savedAt"
      (st.encrypt_client_data now rng
        (policyRecord vCid vBio vFin vEco vObj vDis vSav vLas vSub vExtra f)).fields
      = some (.plain vSav)
    ∧ List.lookup "lastUpdated"
      (st.encrypt_client_data now rng
        (policyRecord vCid vBio vFin vEco vObj vDis vSav vLas vSub vExtra f)).fields
      = some (.plain vLas)
    ∧ List.lookup "submittedBy"
      (st.encrypt_client_data now rng
        (policyRecord vCid vBio vFin vEco vObj vDis vSav vLas vSub vExtra f)).fields
      = some (.plain vSub)
    ∧ List.lookup f
      (st.encrypt_client_data now rng
        (policyRecord vCid vBio vFin vEco vObj vDis vSav vLas vSub vExtra f)).fields
      = none
    ∧ st.decrypt_client_data
      (st.encrypt_client_data now rng
        (policyRecord vCid vBio vFin vEco vObj vDis vSav vLas vSub vExtra f))
      = .ok [("bioData", .plain (jsonReinterpret vBio)),
             ("financialData", .plain (jsonReinterpret vFin)),
             ("economicContext", .plain (jsonReinterpret vEco)),
             ("objectives", .plain (jsonReinterpret vObj)),
             ("distributionPreferences", .plain (jsonReinterpret vDis)),
             ("clientId", .plain vCid),
             ("savedAt", .plain vSav),
             ("lastUpdated", .plain vLas),
             ("submittedBy", .plain vSub)] := by
  simp only [List.mem_cons, List.not_mem_nil, or_false, not_or] at hf
  obtain ⟨hbio, hfin, heco, hobj, hdis, hcli, hsav, hlas, hsub⟩ := hf
  have bbio : (f == "bioData") = false := beq_eq_false_iff_ne.mpr hbio
  have bfin : (f == "financialData") = false := beq_eq_false_iff_ne.mpr hfin
  have beco : (f == "economicContext") = false := beq_eq_false_iff_ne.mpr heco
  have bobj : (f == "objectives") = false := beq_eq_false_iff_ne.mpr hobj
  have bdis : (f == "distributionPreferences") = false := beq_eq_false_iff_ne.mpr hdis
  have bcli : (f == "clientId") = false := beq_eq_false_iff_ne.mpr hcli
  have bsav : (f == "savedAt") = false := beq_eq_false_iff_ne.mpr hsav
  have blas : (f == "lastUpdated") = false := beq_eq_false_iff_ne.mpr hlas
  have bsub : (f == "submittedBy") = false := beq_eq_false_iff_ne.mpr hsub
  refine ⟨?_, ?_, ?_, ?_, ?_, ?_⟩
  · simp [policyRecord, EncryptionService.encrypt_client_data,
      EncryptionService.encryptField, List.lookup]
  · simp [policyRecord, EncryptionService.encrypt_client_data,
      EncryptionService.encryptField, List.lookup]
  · simp [policyRecord, EncryptionService.encrypt_client_data,
      EncryptionService.encryptField, List.lookup]
  · simp [policyRecord, EncryptionService.encrypt_client_data,
      EncryptionService.encryptField, List.lookup]
  · simp [policyRecord, EncryptionService.encrypt_client_data,
      EncryptionService.encryptField, List.lookup,
      bbio, bfin, beco, bobj, bdis, bcli, bsav, blas, bsub]
  · simp [policyRecord, EncryptionService.encrypt_client_data,
      EncryptionService.encryptField, EncryptionService.decrypt_client_data,
      EncryptionService.decryptFields, List.lookup,
      decrypt_encrypt_ok _ _ _ _ _ _ _ hnow]

/-- C9 counterexample: a field outside the policy does not pass through
unmodified — it is absent from the encrypted record altogether. -/
theorem c9_counterexample :
    List.lookup "foo" (svc0.encrypt_client_data now0 13 [("foo", .num 1)]).fields = none :=
  rfl

/-- Client record of the C9 witness: all five policy fields, all four
whitelist fields, and an extra field `zzz`. -/
def clientDataW : List (String × JsonVal) :=
  policyRecord (.str "c1") (.obj [("ssn", .str "123-45-6789")])
    (.obj [("assets", .arr [.num 100])])
    (.obj [("economicStanding", .str "Middle Income")])
    (.obj [("objective", .str "Create Will")])
    (.arr [.str "equal split"])
    (.str "2025-06-01T00:00:00") (.str "2025-06-02T00:00:00") (.str "test_user")
    (.bool true) "zzz"

/-- C9 witness: concrete record exercising the whole policy, the whole
whitelist, and the dropped extra field `zzz`. -/
theorem c9_witness :
    List.lookup "clientId" (svc0.encrypt_client_data now0 11 clientDataW).fields
      = some (.plain (.str "c1"))
    ∧ List.lookup "savedAt" (svc0.encrypt_client_data now0 11 clientDataW).fields
      = some (.plain (.str "2025-06-01T00:00:00"))
    ∧ List.lookup "lastUpdated" (svc0.encrypt_client_data now0 11 clientDataW).fields
      = some (.plain (.str "2025-06-02T00:00:00"))
    ∧ List.lookup "submittedBy" (svc0.encrypt_client_data now0 11 clientDataW).fields
      = some (.plain (.str "test_user"))
    ∧ List.lookup "zzz" (svc0.encrypt_client_data now0 11 clientDataW).fields = none
    ∧ svc0.decrypt_client_data (svc0.encrypt_client_data now0 11 clientDataW)
      = .ok [("bioData", .plain (.obj [("ssn", .str "123-45-6789")])),
             ("financialData", .plain (.obj [("assets", .arr [.num 100])])),
             ("economicContext", .plain (.obj [("economicStanding", .str "Middle Income")])),
             ("objectives", .plain (.obj [("objective", .str "Create Will")])),
             ("distributionPreferences", .plain (.arr [.str "equal split"])),
             ("clientId", .plain (.str "c1")),
             ("savedAt", .plain (.str "2025-06-01T00:00:00")),
             ("lastUpdated", .plain (.str "2025-06-02T00:00:00")),
             ("submittedBy", .plain (.str "test_user"))] :=
  c9_policy_and_passthrough svc0 now0 11 (.str "c1") (.obj [("ssn", .str "123-45-6789")])
    (.obj [("assets", .arr [.num 100])])
    (.obj [("economicStanding", .str "Middle Income")])
    (.obj [("objective", .str "Create Will")])
    (.arr [.str "equal split"])
    (.str "2025-06-01T00:00:00") (.str "2025-06-02T00:00:00") (.str "test_user")
    (.bool true) "zzz" (by decide) (by decide)
